import Mathlib

/-!
Shallow embedding of the multi-transfer tool (src/multiTransfer/evm/index.js):
amount strategy, planner validation, preview/skip reporting, retry with
exponential backoff, sequential execution, and the confirmation prompt.
Numbers are modelled as rationals, provider interactions as oracle inputs.
-/

namespace MultiTransfer

/-- Does the pattern match at the start of the character list? -/
def matchesAt (pat s : List Char) : Bool :=
  match pat, s with
  | [], _ => true
  | _ :: _, [] => false
  | a :: as, b :: bs => a == b && matchesAt as bs

/-- Does the pattern occur anywhere in the character list? -/
def occursIn (pat : List Char) : List Char → Bool
  | [] => matchesAt pat []
  | c :: rest => matchesAt pat (c :: rest) || occursIn pat rest

/-- JavaScript String.prototype.includes. -/
def includes (s sub : String) : Bool :=
  occursIn sub.toList s.toList

/-- Split a character list on a separator character, keeping empty pieces,
as JavaScript String.prototype.split with a one-character separator does. -/
def splitOnChar (sep : Char) : List Char → List (List Char)
  | [] => [[]]
  | a :: rest =>
    match splitOnChar sep rest with
    | [] => if a == sep then [[], []] else [[a]]
    | g :: gs => if a == sep then [] :: g :: gs else (a :: g) :: gs

/-- Drop leading whitespace characters. -/
def dropWhileWs : List Char → List Char
  | [] => []
  | c :: rest => if c.isWhitespace then dropWhileWs rest else c :: rest

/-- JavaScript String.prototype.trim: remove whitespace from both ends. -/
def jsTrim (s : String) : String :=
  String.mk ((dropWhileWs (dropWhileWs s.toList).reverse).reverse)

/-- JavaScript String.prototype.toLowerCase, on the ASCII range. -/
def jsToLower (s : String) : String :=
  String.mk (s.toList.map Char.toLower)

/-- Render a rational in the decimal-or-fraction form used only for the
human-readable report lines. -/
def ratRender (q : ℚ) : String :=
  if q.den = 1 then Int.repr q.num else Int.repr q.num ++ "/" ++ Nat.repr q.den

/-- Transfer amount mode, the TRANSFER_MODE configuration value. -/
inductive TransferMode
  | fixed
  | range
  | all
  | percent
  | remain
deriving DecidableEq

/-- The run configuration relevant to planning (config object plus the
token metadata resolved at startup: decimals and symbol). -/
structure Config where
  transferMode : TransferMode
  fixedAmount : ℚ
  minAmount : ℚ
  maxAmount : ℚ
  percent : ℚ
  remainAmount : ℚ
  randomDecimals : ℕ
  decimals : ℕ
  symbol : String
deriving DecidableEq

/-- randomAmount(min, max, decimals): the scaled-integer uniform draw
Math.floor(r * (max * factor - min * factor) + min * factor) / factor,
where `r` models one value of Math.random() in [0,1). -/
def randomAmount (min max : ℚ) (decimals : ℕ) (r : ℚ) : ℚ :=
  (⌊r * (max * 10 ^ decimals - min * 10 ^ decimals) + min * 10 ^ decimals⌋ : ℚ) / 10 ^ decimals

/-- The amount switch of previewTransfers (lines 110-116 of the source). -/
def computeAmount (cfg : Config) (b r : ℚ) : ℚ :=
  match cfg.transferMode with
  | .fixed => cfg.fixedAmount
  | .range => randomAmount cfg.minAmount cfg.maxAmount cfg.randomDecimals r
  | .all => b
  | .percent => b * cfg.percent
  | .remain => max (b - cfg.remainAmount) 0

/-- Reason recorded for a skipped entry. -/
inductive SkipReason
  | zero_balance
  | insufficient_balance
deriving DecidableEq

/-- Outcome of planner validation for one entry. -/
inductive EntryDecision
  | accepted
  | skipped (reason : SkipReason)
deriving DecidableEq

/-- Planner validation (lines 118-126 of the source): balance check first,
then the amount check, otherwise the entry is accepted. -/
def classifyEntry (b amount : ℚ) : EntryDecision :=
  if b ≤ 0 then .skipped .zero_balance
  else if amount ≤ 0 ∨ b < amount then .skipped .insufficient_balance
  else .accepted

lemma classifyEntry_zero_iff (b a : ℚ) :
    classifyEntry b a = .skipped .zero_balance ↔ b ≤ 0 := by
  unfold classifyEntry
  split_ifs with h1 h2 <;> simp_all

lemma classifyEntry_insufficient_iff (b a : ℚ) :
    classifyEntry b a = .skipped .insufficient_balance ↔ 0 < b ∧ (a ≤ 0 ∨ b < a) := by
  unfold classifyEntry
  split_ifs with h1 h2 <;> simp_all

lemma classifyEntry_accepted_iff (b a : ℚ) :
    classifyEntry b a = .accepted ↔ 0 < b ∧ 0 < a ∧ a ≤ b := by
  unfold classifyEntry
  split_ifs with h1 h2
  · constructor
    · intro h; exact absurd h (by simp)
    · rintro ⟨hb, -, -⟩; exact absurd h1 (not_le.mpr hb)
  · constructor
    · intro h; exact absurd h (by simp)
    · rintro ⟨hb, ha, hab⟩
      exfalso
      rcases h2 with h | h <;> linarith
  · push_neg at h1 h2
    exact iff_of_true rfl ⟨h1, h2.1, h2.2⟩

/-- Claim C1: the planner skips an entry with reason zero_balance iff the
queried balance b is at most 0 (this check runs first), skips it with reason
insufficient_balance iff b is positive and the amount is non-positive or
exceeds b, and accepts it otherwise. -/
theorem claim1_planner_validation (b a : ℚ) :
    (classifyEntry b a = .skipped .zero_balance ↔ b ≤ 0)
    ∧ (classifyEntry b a = .skipped .insufficient_balance ↔ 0 < b ∧ (a ≤ 0 ∨ b < a))
    ∧ (classifyEntry b a = .accepted ↔ 0 < b ∧ 0 < a ∧ a ≤ b) :=
  ⟨classifyEntry_zero_iff b a, classifyEntry_insufficient_iff b a,
    classifyEntry_accepted_iff b a⟩

/-- A configuration in remain mode leaving `q` behind, used by the concrete
parts of the remain-mode claim. -/
def cfgRemain (q : ℚ) : Config :=
  { transferMode := .remain, fixedAmount := 0, minAmount := 0, maxAmount := 0,
    percent := 0, remainAmount := q, randomDecimals := 6, decimals := 18, symbol := "TKN" }

/-- Claim C3: in remain mode with remainAmount at least 0 and balance b at
least 0 the computed amount is max(b - remainAmount, 0); with b = 5 and
remain = 5 the amount is 0 and the entry is skipped with reason
insufficient_balance, and with b = 5 and remain = 3 the amount is 2 and the
entry is accepted. -/
theorem claim3_remain_mode (cfg : Config) (hm : cfg.transferMode = .remain)
    (hr : 0 ≤ cfg.remainAmount) (b r : ℚ) (hb : 0 ≤ b) :
    computeAmount cfg b r = max (b - cfg.remainAmount) 0
    ∧ computeAmount (cfgRemain 5) 5 0 = 0
    ∧ classifyEntry 5 (computeAmount (cfgRemain 5) 5 0) = .skipped .insufficient_balance
    ∧ computeAmount (cfgRemain 3) 5 0 = 2
    ∧ classifyEntry 5 (computeAmount (cfgRemain 3) 5 0) = .accepted := by
  have e5 : computeAmount (cfgRemain 5) 5 0 = 0 := by
    unfold computeAmount cfgRemain
    norm_num
  have e3 : computeAmount (cfgRemain 3) 5 0 = 2 := by
    unfold computeAmount cfgRemain
    norm_num
  refine ⟨?_, e5, ?_, e3, ?_⟩
  · unfold computeAmount
    rw [hm]
  · rw [e5]
    exact (classifyEntry_insufficient_iff 5 0).mpr (by norm_num)
  · rw [e3]
    exact (classifyEntry_accepted_iff 5 2).mpr (by norm_num)

/-- Witness for C3 at cfg = cfgRemain 3, b = 7, r = 0. -/
theorem claim3_witness :
    computeAmount (cfgRemain 3) 7 0 = max ((7 : ℚ) - (cfgRemain 3).remainAmount) 0
    ∧ computeAmount (cfgRemain 5) 5 0 = 0
    ∧ classifyEntry 5 (computeAmount (cfgRemain 5) 5 0) = .skipped .insufficient_balance
    ∧ computeAmount (cfgRemain 3) 5 0 = 2
    ∧ classifyEntry 5 (computeAmount (cfgRemain 3) 5 0) = .accepted :=
  claim3_remain_mode (cfgRemain 3) rfl (by norm_num [cfgRemain]) 7 0 (by norm_num)

/-- Counterexample for C4: the upper endpoint 2 is never generated: there is
no random draw r in [0,1) for which randomAmount(1, 2, 6) returns 2, because
the scaled integer floor(r * 10^6 + 10^6) is strictly below 2 * 10^6. -/
theorem claim4_counterexample :
    ¬ ∃ r : ℚ, 0 ≤ r ∧ r < 1 ∧ randomAmount 1 2 6 r = 2 := by
  rintro ⟨r, hr0, hr1, heq⟩
  unfold randomAmount at heq
  norm_num at heq
  have h := Int.floor_le (r * 1000000)
  nlinarith [h, heq, hr1]

/-- Claim C4 as amended: for mode range with min = 1 and max = 2 every
generated amount lies in [1, 2 - 10^(-6)], hence in [1, 2]; the lower
endpoint 1 is attained at draw 0, but 2 is never generated. -/
theorem claim4_amended (r : ℚ) (h0 : 0 ≤ r) (h1 : r < 1) :
    1 ≤ randomAmount 1 2 6 r
    ∧ randomAmount 1 2 6 r ≤ 2 - 1 / 10 ^ 6
    ∧ randomAmount 1 2 6 r ≤ 2
    ∧ randomAmount 1 2 6 0 = 1 := by
  have hy0 : (0 : ℤ) ≤ ⌊r * 1000000⌋ := Int.floor_nonneg.mpr (by positivity)
  have hy1 : ⌊r * 1000000⌋ ≤ (999999 : ℤ) := by
    have hlt : ⌊r * 1000000⌋ < (1000000 : ℤ) := by
      rw [Int.floor_lt]
      push_cast
      nlinarith
    omega
  have hy0q : (0 : ℚ) ≤ (⌊r * 1000000⌋ : ℚ) := by exact_mod_cast hy0
  have hy1q : (⌊r * 1000000⌋ : ℚ) ≤ 999999 := by exact_mod_cast hy1
  refine ⟨?_, ?_, ?_, ?_⟩
  · unfold randomAmount
    norm_num
    rw [le_div_iff₀ (by norm_num : (0 : ℚ) < 1000000)]
    linarith
  · unfold randomAmount
    norm_num
    rw [div_le_div_iff₀ (by norm_num : (0 : ℚ) < 1000000) (by norm_num : (0 : ℚ) < 1000000)]
    linarith
  · unfold randomAmount
    norm_num
    rw [div_le_iff₀ (by norm_num : (0 : ℚ) < 1000000)]
    linarith
  · unfold randomAmount
    norm_num

/-- Witness for C4 as amended at draw r = 1/2. -/
theorem claim4_witness :
    1 ≤ randomAmount 1 2 6 (1 / 2)
    ∧ randomAmount 1 2 6 (1 / 2) ≤ 2 - 1 / 10 ^ 6
    ∧ randomAmount 1 2 6 (1 / 2) ≤ 2
    ∧ randomAmount 1 2 6 0 = 1 :=
  claim4_amended (1 / 2) (by norm_num) (by norm_num)

/-- The code field of a JavaScript error object: a string code, a numeric
code, or absent. -/
inductive ErrorCode
  | strCode (s : String)
  | numCode (n : ℤ)
  | noCode
deriving DecidableEq

/-- A JavaScript error as inspected by withRetry. -/
structure JsError where
  code : ErrorCode
  message : String
deriving DecidableEq

/-- The retriable predicate of withRetry (line 200 of the source): the code
is SERVER_ERROR, or the code is -32603, or the message includes the text
"no response". -/
def retriable (e : JsError) : Bool :=
  decide (e.code = .strCode "SERVER_ERROR") || decide (e.code = .numCode (-32603))
    || includes e.message "no response"

/-- Observable trace of one withRetry run: the final result, the number of
invocations of the wrapped operation, and the list of backoff waits in ms. -/
structure RetryTrace (α : Type) where
  result : Except JsError α
  calls : ℕ
  backoffs : List ℕ

/-- The retry loop of withRetry. `fn k` is the result of the k-th invocation
of the wrapped operation; `fuel` is the number of retries still allowed
(maxRetries minus the current attempt counter); `attempt` is the current
attempt counter at the top of the loop. On the final attempt any error is
rethrown; otherwise a retriable error waits delay * 2 ^ (attempt + 1)
(the source increments attempt before computing the backoff) and retries,
and a non-retriable error is rethrown at once. -/
def retryAux {α : Type} (fn : ℕ → Except JsError α) (delay : ℕ) :
    ℕ → ℕ → RetryTrace α
  | 0, attempt =>
    match fn attempt with
    | .ok v => ⟨.ok v, 1, []⟩
    | .error e => ⟨.error e, 1, []⟩
  | fuel + 1, attempt =>
    match fn attempt with
    | .ok v => ⟨.ok v, 1, []⟩
    | .error e =>
      if retriable e then
        let rest := retryAux fn delay fuel (attempt + 1)
        ⟨rest.result, rest.calls + 1, delay * 2 ^ (attempt + 1) :: rest.backoffs⟩
      else ⟨.error e, 1, []⟩

/-- withRetry(fn, maxRetries, delay): run the retry loop starting at
attempt 0 with maxRetries retries available. -/
def withRetry {α : Type} (fn : ℕ → Except JsError α) (maxRetries delay : ℕ) :
    RetryTrace α :=
  retryAux fn delay maxRetries 0

lemma retryAux_calls_le {α : Type} (fn : ℕ → Except JsError α) (delay : ℕ) :
    ∀ fuel attempt, (retryAux fn delay fuel attempt).calls ≤ fuel + 1 := by
  intro fuel
  induction fuel with
  | zero =>
    intro a
    unfold retryAux
    cases hf : fn a <;> simp
  | succ f ih =>
    intro a
    unfold retryAux
    cases hf : fn a with
    | ok v => simp
    | error e =>
      by_cases hr : retriable e
      · simp only [hr, if_true]
        have := ih (a + 1)
        simp
        omega
      · simp [hr]

/-- Claim C2: withRetry invokes the wrapped operation at most
maxRetries + 1 times; an operation that fails twice with a retriable error
and then succeeds is invoked exactly 3 times and the success value is
returned; an operation that always fails with a non-retriable error is
invoked exactly once and that error propagates at once. -/
theorem claim2_retry_executor (fn : ℕ → Except JsError ℕ) (e : JsError) (v : ℕ)
    (hret : retriable e = true) (h0 : fn 0 = .error e) (h1 : fn 1 = .error e)
    (h2 : fn 2 = .ok v) (g : ℕ → Except JsError ℕ) (e2 : JsError)
    (hnr : retriable e2 = false) (hg : ∀ k, g k = .error e2) :
    (∀ (f : ℕ → Except JsError ℕ) (mr d : ℕ), (withRetry f mr d).calls ≤ mr + 1)
    ∧ (withRetry fn 3 1000).calls = 3
    ∧ (withRetry fn 3 1000).result = .ok v
    ∧ (withRetry g 3 1000).calls = 1
    ∧ (withRetry g 3 1000).result = .error e2 := by
  refine ⟨fun f mr d => retryAux_calls_le f d mr 0, ?_, ?_, ?_, ?_⟩
  · simp [withRetry, retryAux, h0, h1, h2, hret]
  · simp [withRetry, retryAux, h0, h1, h2, hret]
  · simp [withRetry, retryAux, hg 0, hnr]
  · simp [withRetry, retryAux, hg 0, hnr]

/-- A retriable server error used by the concrete retry scenarios. -/
def serverErr : JsError := ⟨.strCode "SERVER_ERROR", "server error"⟩

/-- A non-retriable error used by the concrete retry scenarios. -/
def userErr : JsError := ⟨.noCode, "user rejected transaction"⟩

/-- An operation failing with a retriable error on its first two
invocations and succeeding with 42 afterwards. -/
def fnTwoFail : ℕ → Except JsError ℕ := fun k => if k < 2 then .error serverErr else .ok 42

/-- An operation that always fails with a non-retriable error. -/
def fnAlwaysFail : ℕ → Except JsError ℕ := fun _ => .error userErr

/-- Witness for C2 at the concrete operations fnTwoFail and fnAlwaysFail. -/
theorem claim2_witness :
    (withRetry fnTwoFail 3 1000).calls = 3
    ∧ (withRetry fnTwoFail 3 1000).result = .ok 42
    ∧ (withRetry fnAlwaysFail 3 1000).calls = 1
    ∧ (withRetry fnAlwaysFail 3 1000).result = .error userErr := by
  have h := claim2_retry_executor fnTwoFail serverErr 42 (by decide) rfl rfl rfl
    fnAlwaysFail userErr (by decide) (fun _ => rfl)
  exact ⟨h.2.1, h.2.2.1, h.2.2.2.1, h.2.2.2.2⟩

/-- An operation failing with a retriable error on its first invocation and
succeeding afterwards. -/
def fnOneFail : ℕ → Except JsError ℕ := fun k => if k = 0 then .error serverErr else .ok 7

/-- Counterexample for C8: with the default base delay of 1000 ms, the wait
before the first retry is 2000 ms = delay * 2 ^ 1, not delay * 2 ^ 0 =
1000 ms as the claim states: the source increments the attempt counter
before computing the backoff. -/
theorem claim8_counterexample :
    (withRetry fnOneFail 3 1000).backoffs = [2000] ∧ (2000 : ℕ) ≠ 1000 * 2 ^ 0 := by
  constructor
  · rfl
  · decide

lemma retryAux_backoff_get {α : Type} (fn : ℕ → Except JsError α) (d : ℕ) :
    ∀ fuel attempt i b,
      (retryAux fn d fuel attempt).backoffs.get? i = some b →
      b = d * 2 ^ (attempt + 1 + i) := by
  intro fuel
  induction fuel with
  | zero =>
    intro a i b h
    unfold retryAux at h
    cases hf : fn a <;> rw [hf] at h <;> simp at h
  | succ f ih =>
    intro a i b h
    unfold retryAux at h
    cases hf : fn a with
    | ok v => rw [hf] at h; simp at h
    | error e =>
      rw [hf] at h
      by_cases hr : retriable e
      · simp only [hr, if_true] at h
        cases i with
        | zero =>
          simp at h
          simpa using h.symm
        | succ j =>
          rw [List.get?_cons_succ] at h
          have hrec := ih (a + 1) j b h
          have he : a + 1 + 1 + j = a + 1 + (j + 1) := by omega
          rw [he] at hrec
          exact hrec
      · simp [hr] at h

/-- Claim C8 as amended: the wait before the k-th retry (retries counted
from k = 1) equals delay * 2 ^ k, because the attempt counter is
incremented before the backoff is computed; in particular the wait before
the first retry is delay * 2, i.e. 2000 ms at the default base delay. -/
theorem claim8_amended (fn : ℕ → Except JsError ℕ) (mr d i b : ℕ)
    (h : (withRetry fn mr d).backoffs.get? i = some b) : b = d * 2 ^ (i + 1) := by
  have hrec := retryAux_backoff_get fn d mr 0 i b h
  have he : 0 + 1 + i = i + 1 := by omega
  rw [he] at hrec
  exact hrec

/-- Witness for C8 as amended at the concrete operation fnOneFail. -/
theorem claim8_witness :
    (withRetry fnOneFail 3 1000).backoffs.get? 0 = some 2000
    ∧ (2000 : ℕ) = 1000 * 2 ^ (0 + 1) :=
  ⟨rfl, claim8_amended fnOneFail 3 1000 0 2000 rfl⟩

/-- toReadable: parseFloat(ethers.utils.formatUnits(raw, decimals)).toFixed(6)
read back as a number, i.e. the base-unit integer balance scaled down by
10 ^ decimals and rounded (half up) to 6 decimal places. -/
def toReadable (raw : ℤ) (decimals : ℕ) : ℚ :=
  (round ((raw : ℚ) / 10 ^ decimals * 10 ^ 6) : ℚ) / 10 ^ 6

/-- line.split(':') destructured as [privateKey, to] (line 89 of the
source); the destination is undefined (none) when the line has no colon. -/
def lineFields (line : String) : String × Option String :=
  match (splitOnChar ':' line.toList).map String.mk with
  | [] => ("", none)
  | [pk] => (pk, none)
  | pk :: toField :: _ => (pk, some toField)

/-- A transfer accepted into the plan (one element of `result`). -/
structure PlannedTransfer where
  privateKey : String
  fromAddr : String
  toAddr : String
  amount : ℚ
deriving DecidableEq

/-- The external inputs consumed by one planner iteration: the raw input
line, the wallet address derived from its private key, the base-unit
balance answered by the provider (none models a failed balance query), and
the Math.random() draw a range-mode amount would consume. -/
structure LineInput where
  line : String
  fromAddr : String
  balanceRaw : Option ℤ
  rand : ℚ
deriving DecidableEq

/-- What one planner iteration does with its entry. -/
inductive StepResult
  | crash (msg : String)
  | queryFail
  | skip (rendered : String) (reason : SkipReason)
  | accept (p : PlannedTransfer) (b : ℚ) (rendered : String)
deriving DecidableEq

/-- The unhandled TypeError raised when the destination field of a line
with no colon is dereferenced. -/
def crashTrimMsg : String := "TypeError: to is undefined"

/-- One iteration of the previewTransfers loop (lines 88-130 of the
source): a failed balance query skips to the next entry; a missing
destination field is dereferenced in every remaining branch and so raises
an unhandled TypeError; otherwise the readable balance and the candidate
amount are computed and the entry is classified. -/
def previewStep (cfg : Config) (i : ℕ) (inp : LineInput) : StepResult :=
  match inp.balanceRaw with
  | none => .queryFail
  | some raw =>
    match (lineFields inp.line).2 with
    | none => .crash crashTrimMsg
    | some toField =>
      let b := toReadable raw cfg.decimals
      let amount := computeAmount cfg b inp.rand
      let idx := i + 1
      let fromA := inp.fromAddr
      let bStr := ratRender b
      let toTrim := jsTrim toField
      let sym := cfg.symbol
      let amtStr := ratRender amount
      match classifyEntry b amount with
      | .skipped .zero_balance =>
          .skip s!"{idx} | {fromA}({bStr}) => {toTrim} | {sym} |  {amtStr} | 余额为0，跳过"
            .zero_balance
      | .skipped .insufficient_balance =>
          .skip s!"{idx} | {fromA}({bStr}) => {toTrim} | {sym} |  {amtStr} | 余额不足，无法发送"
            .insufficient_balance
      | .accepted =>
          .accept ⟨(lineFields inp.line).1, fromA, toTrim, amount⟩ b
            s!"{idx} | {fromA}({bStr}) => {toTrim} | {sym} | {amtStr}"

/-- Header line of the preview report. -/
def previewHeader : String := "序号 | 发送地址(余额) => 接收地址 | 代币 | 预计发送金额"

/-- The three accumulators of previewTransfers: the accepted plan, the skip
list, and the preview report lines. -/
structure PreviewState where
  result : List PlannedTransfer
  skipped : List String
  previewLines : List String
deriving DecidableEq

/-- The previewTransfers loop over the remaining entries, with the current
index and accumulators; an unhandled TypeError aborts the whole run. -/
def processGo (cfg : Config) : List LineInput → ℕ → PreviewState → Except String PreviewState
  | [], _, st => .ok st
  | inp :: rest, i, st =>
    match previewStep cfg i inp with
    | .crash msg => .error msg
    | .queryFail => processGo cfg rest (i + 1) st
    | .skip rendered _ =>
        processGo cfg rest (i + 1) { st with skipped := st.skipped ++ [rendered] }
    | .accept p _ rendered =>
        processGo cfg rest (i + 1)
          { st with result := st.result ++ [p], previewLines := st.previewLines ++ [rendered] }

/-- previewTransfers: run the planner loop over all entries starting from
empty accumulators, the preview report holding only its header line. -/
def previewTransfers (cfg : Config) (inputs : List LineInput) : Except String PreviewState :=
  processGo cfg inputs 0 ⟨[], [], [previewHeader]⟩

/-- One executed transfer as recorded in the success or failure log. -/
structure TransferOutcome where
  fromAddr : String
  toAddr : String
  amount : ℚ
  result : Except String String

/-- formatAmount (line 63 of the source): ethers.utils.parseUnits of the
amount at the given decimal count; it throws when the amount has a
fractional component beyond the decimals, i.e. when amount * 10 ^ decimals
is not an integer, and otherwise yields that integer of base units. -/
def formatAmount (amount : ℚ) (decimals : ℕ) : Option ℤ :=
  if Int.fract (amount * 10 ^ decimals) = 0 then some ⌊amount * 10 ^ decimals⌋ else none

/-- The unhandled error raised by parseUnits for an over-precise amount. -/
def parseUnitsErr : String := "Error: fractional component exceeds decimals"

/-- The unhandled error raised by the Wallet constructor for a bad key. -/
def invalidKeyErr : String := "Error: invalid private key"

/-- The unhandled error raised by parseUnits for a bad fixed gas price. -/
def gasParseErr : String := "Error: invalid gas price"

/-- What one execution run leaves behind: the outcomes appended to the
success/failure logs, the number of randomDelay() waits awaited, and the
unhandled error that aborted the loop, when one did. -/
structure RunResult where
  outcomes : List TransferOutcome
  delays : ℕ
  crashed : Option String

/-- executeTransfers (lines 153-188 of the source). Per entry, in order and
outside the try/catch: the Wallet is constructed from the untrimmed private
key (`validKey` models whether that construction succeeds), the amount is
converted with formatAmount, and the fixed-gas overrides are built
(`gasOk` models whether that parseUnits succeeds; it is true in auto gas
mode). A throw from any of these is unhandled and aborts the whole loop:
no outcome is recorded for the entry, no delay is awaited, and later
entries are never attempted. Only then does the try/catch run: `submit`
models the withRetry-wrapped transaction submission (ok carries the
transaction hash, error the final error message), one outcome is recorded
either way, and a randomDelay() is awaited after the entry. -/
def executeTransfers (validKey : String → Bool) (decimals : ℕ) (gasOk : Bool)
    (submit : PlannedTransfer → Except String String) :
    List PlannedTransfer → RunResult
  | [] => ⟨[], 0, none⟩
  | p :: rest =>
    if validKey p.privateKey then
      match formatAmount p.amount decimals with
      | some _value =>
        if gasOk then
          let outcome : TransferOutcome := ⟨p.fromAddr, p.toAddr, p.amount, submit p⟩
          let restRun := executeTransfers validKey decimals gasOk submit rest
          ⟨outcome :: restRun.outcomes, restRun.delays + 1, restRun.crashed⟩
        else ⟨[], 0, some gasParseErr⟩
      | none => ⟨[], 0, some parseUnitsErr⟩
    else ⟨[], 0, some invalidKeyErr⟩

/-- The confirmation prompt handler (lines 255-263 of the source): the plan
is executed only when answer.trim().toLowerCase() === "yes"; any other
answer executes nothing. -/
def mainAfterPrompt (answer : String) (validKey : String → Bool) (decimals : ℕ)
    (gasOk : Bool) (submit : PlannedTransfer → Except String String)
    (plan : List PlannedTransfer) : RunResult :=
  if jsToLower (jsTrim answer) = "yes" then
    executeTransfers validKey decimals gasOk submit plan
  else ⟨[], 0, none⟩

lemma processGo_nil (cfg : Config) (i : ℕ) (st : PreviewState) :
    processGo cfg [] i st = .ok st := rfl

lemma processGo_cons_crash {cfg : Config} {inp : LineInput} {rest : List LineInput}
    {i : ℕ} {st : PreviewState} {msg : String}
    (h : previewStep cfg i inp = .crash msg) :
    processGo cfg (inp :: rest) i st = .error msg := by
  simp [processGo, h]

lemma processGo_cons_queryFail {cfg : Config} {inp : LineInput} {rest : List LineInput}
    {i : ℕ} {st : PreviewState}
    (h : previewStep cfg i inp = .queryFail) :
    processGo cfg (inp :: rest) i st = processGo cfg rest (i + 1) st := by
  simp [processGo, h]

lemma processGo_cons_skip {cfg : Config} {inp : LineInput} {rest : List LineInput}
    {i : ℕ} {st : PreviewState} {s : String} {r : SkipReason}
    (h : previewStep cfg i inp = .skip s r) :
    processGo cfg (inp :: rest) i st
      = processGo cfg rest (i + 1) { st with skipped := st.skipped ++ [s] } := by
  simp [processGo, h]

lemma processGo_cons_accept {cfg : Config} {inp : LineInput} {rest : List LineInput}
    {i : ℕ} {st : PreviewState} {p : PlannedTransfer} {b : ℚ} {s : String}
    (h : previewStep cfg i inp = .accept p b s) :
    processGo cfg (inp :: rest) i st
      = processGo cfg rest (i + 1)
          { st with result := st.result ++ [p], previewLines := st.previewLines ++ [s] } := by
  simp [processGo, h]

lemma previewStep_queryFail_balance {cfg : Config} {i : ℕ} {inp : LineInput}
    (h : previewStep cfg i inp = .queryFail) : inp.balanceRaw = none := by
  unfold previewStep at h
  cases hbr : inp.balanceRaw with
  | none => rfl
  | some raw =>
    rw [hbr] at h
    cases hlf : (lineFields inp.line).2 with
    | none => rw [hlf] at h; simp at h
    | some toField =>
      rw [hlf] at h
      cases hcl : classifyEntry (toReadable raw cfg.decimals)
          (computeAmount cfg (toReadable raw cfg.decimals) inp.rand) with
      | accepted => simp [hcl] at h
      | skipped r => cases r <;> simp [hcl] at h

lemma previewStep_skip_balance {cfg : Config} {i : ℕ} {inp : LineInput} {s : String}
    {r : SkipReason} (h : previewStep cfg i inp = .skip s r) :
    ∃ raw, inp.balanceRaw = some raw := by
  unfold previewStep at h
  cases hbr : inp.balanceRaw with
  | none => rw [hbr] at h; simp at h
  | some raw => exact ⟨raw, rfl⟩

lemma previewStep_accept_inv {cfg : Config} {i : ℕ} {inp : LineInput}
    {p : PlannedTransfer} {b : ℚ} {s : String}
    (h : previewStep cfg i inp = .accept p b s) :
    ∃ raw, inp.balanceRaw = some raw ∧ b = toReadable raw cfg.decimals
      ∧ 0 < p.amount ∧ p.amount ≤ b := by
  unfold previewStep at h
  cases hbr : inp.balanceRaw with
  | none => rw [hbr] at h; simp at h
  | some raw =>
    rw [hbr] at h
    refine ⟨raw, rfl, ?_⟩
    cases hlf : (lineFields inp.line).2 with
    | none => rw [hlf] at h; simp at h
    | some toField =>
      rw [hlf] at h
      simp only at h
      cases hcl : classifyEntry (toReadable raw cfg.decimals)
          (computeAmount cfg (toReadable raw cfg.decimals) inp.rand) with
      | accepted =>
        rw [hcl] at h
        simp only [StepResult.accept.injEq] at h
        obtain ⟨hp, hb, -⟩ := h
        have hbounds := (classifyEntry_accepted_iff _ _).mp hcl
        subst hb
        constructor
        · rfl
        · rw [← hp]
          exact ⟨hbounds.2.1, hbounds.2.2⟩
      | skipped r => cases r <;> rw [hcl] at h <;> simp at h

lemma processGo_counts (cfg : Config) :
    ∀ (inputs : List LineInput) (i : ℕ) (st0 st : PreviewState),
      processGo cfg inputs i st0 = .ok st →
      st.previewLines.length + st0.result.length
        = st0.previewLines.length + st.result.length
      ∧ st.result.length + st.skipped.length
        = st0.result.length + st0.skipped.length
          + (inputs.filter (fun inp => inp.balanceRaw.isSome)).length := by
  intro inputs
  induction inputs with
  | nil =>
    intro i st0 st h
    rw [processGo_nil] at h
    cases h
    simp
  | cons inp rest ih =>
    intro i st0 st h
    cases hs : previewStep cfg i inp with
    | crash msg =>
      rw [processGo_cons_crash hs] at h
      cases h
    | queryFail =>
      rw [processGo_cons_queryFail hs] at h
      have hb := previewStep_queryFail_balance hs
      have hrec := ih (i + 1) st0 st h
      simp [List.filter, hb]
      exact hrec
    | skip s r =>
      rw [processGo_cons_skip hs] at h
      obtain ⟨raw, hraw⟩ := previewStep_skip_balance hs
      have hrec := ih (i + 1) _ st h
      simp only [List.length_append, List.length_cons, List.length_nil] at hrec
      simp [List.filter, hraw]
      omega
    | accept p b s =>
      rw [processGo_cons_accept hs] at h
      obtain ⟨raw, hraw, -⟩ := previewStep_accept_inv hs
      have hrec := ih (i + 1) _ st h
      simp only [List.length_append, List.length_cons, List.length_nil] at hrec
      simp [List.filter, hraw]
      omega

lemma processGo_result_mem (cfg : Config) :
    ∀ (inputs : List LineInput) (i : ℕ) (st0 st : PreviewState),
      processGo cfg inputs i st0 = .ok st → ∀ p ∈ st.result,
      p ∈ st0.result ∨ ∃ inp ∈ inputs, ∃ j s raw, inp.balanceRaw = some raw ∧
        previewStep cfg j inp = .accept p (toReadable raw cfg.decimals) s ∧
        0 < p.amount ∧ p.amount ≤ toReadable raw cfg.decimals := by
  intro inputs
  induction inputs with
  | nil =>
    intro i st0 st h p hp
    rw [processGo_nil] at h
    cases h
    exact Or.inl hp
  | cons inp rest ih =>
    intro i st0 st h p hp
    cases hs : previewStep cfg i inp with
    | crash msg =>
      rw [processGo_cons_crash hs] at h
      cases h
    | queryFail =>
      rw [processGo_cons_queryFail hs] at h
      rcases ih (i + 1) st0 st h p hp with hmem | ⟨inp2, hinp2, hrest⟩
      · exact Or.inl hmem
      · exact Or.inr ⟨inp2, List.mem_cons_of_mem _ hinp2, hrest⟩
    | skip s r =>
      rw [processGo_cons_skip hs] at h
      rcases ih (i + 1) _ st h p hp with hmem | ⟨inp2, hinp2, hrest⟩
      · exact Or.inl hmem
      · exact Or.inr ⟨inp2, List.mem_cons_of_mem _ hinp2, hrest⟩
    | accept q b s =>
      rw [processGo_cons_accept hs] at h
      rcases ih (i + 1) _ st h p hp with hmem | ⟨inp2, hinp2, hrest⟩
      · simp only [List.mem_append, List.mem_singleton] at hmem
        rcases hmem with hmem | hpq
        · exact Or.inl hmem
        · subst hpq
          obtain ⟨raw, hraw, hb, hpos, hle⟩ := previewStep_accept_inv hs
          subst hb
          exact Or.inr ⟨inp, List.mem_cons_self _ _, i, s, raw, hraw, hs, hpos, hle⟩
      · exact Or.inr ⟨inp2, List.mem_cons_of_mem _ hinp2, hrest⟩

/-- Claim C10: every transfer p the planner accepts into the plan has a
positive amount bounded by the 6-decimal-rounded readable balance of the
entry p was planned from: some input entry of the run, with base-unit
queried balance raw, whose planner step produced exactly p together with
that entry's readable balance toReadable raw, and p.amount is positive and
at most that balance. -/
theorem claim10_planner_invariant (cfg : Config) (inputs : List LineInput)
    (st : PreviewState) (h : previewTransfers cfg inputs = .ok st)
    (p : PlannedTransfer) (hp : p ∈ st.result) :
    0 < p.amount ∧ ∃ inp ∈ inputs, ∃ j s raw, inp.balanceRaw = some raw ∧
      previewStep cfg j inp = .accept p (toReadable raw cfg.decimals) s ∧
      p.amount ≤ toReadable raw cfg.decimals := by
  unfold previewTransfers at h
  rcases processGo_result_mem cfg inputs 0 _ st h p hp with
    hmem | ⟨inp, hinp, j, s, raw, hraw, hstep, hpos, hle⟩
  · simp at hmem
  · exact ⟨hpos, inp, hinp, j, s, raw, hraw, hstep, hle⟩

/-- Claim C6 as amended: the preview report holds its header plus one line
per accepted entry; every entry whose balance query succeeds contributes
exactly one line, to the preview report when accepted or to the skip list
when skipped; skipped entries never appear in the preview report. -/
theorem claim6_amended (cfg : Config) (inputs : List LineInput) (st : PreviewState)
    (h : previewTransfers cfg inputs = .ok st) :
    st.previewLines.length = 1 + st.result.length
    ∧ st.result.length + st.skipped.length
      = (inputs.filter (fun inp => inp.balanceRaw.isSome)).length := by
  unfold previewTransfers at h
  have hc := processGo_counts cfg inputs 0 _ st h
  simp at hc
  omega

/-- A fixed-mode configuration sending 1 token, 0 base-unit decimals, used
by the concrete planner runs. -/
def cfgFixed1 : Config :=
  { transferMode := .fixed, fixedAmount := 1, minAmount := 0, maxAmount := 0,
    percent := 0, remainAmount := 0, randomDecimals := 6, decimals := 0, symbol := "TKN" }

/-- A well-formed entry whose balance query answers 5. -/
def inpAccept : LineInput := ⟨"k:d", "0xA", some 5, 0⟩

/-- A well-formed entry whose balance query answers 0. -/
def inpZero : LineInput := ⟨"kz:dz", "0xZ", some 0, 0⟩

/-- A well-formed entry whose balance query fails. -/
def inpQFail : LineInput := ⟨"kq:dq", "0xQ", none, 0⟩

/-- A malformed entry with no colon, balance query succeeding. -/
def inpNoColon : LineInput := ⟨"nocolon", "0xN", some 5, 0⟩

/-- An entry whose destination field is empty, balance query answering 5. -/
def inpEmptyDest : LineInput := ⟨"k1:", "0xE", some 5, 0⟩

/-- The planned transfer produced from inpAccept under cfgFixed1. -/
def planned0 : PlannedTransfer := ⟨"k", "0xA", "d", 1⟩

/-- Preview line for inpAccept at index 0. -/
def alineA : String := "1 | 0xA(5) => d | TKN | 1"

/-- Skip line for inpZero at index 0. -/
def zline0 : String := "1 | 0xZ(0) => dz | TKN |  1 | 余额为0，跳过"

/-- Skip line for inpZero at index 1. -/
def zline1 : String := "2 | 0xZ(0) => dz | TKN |  1 | 余额为0，跳过"

/-- Preview line for inpEmptyDest at index 0: empty destination. -/
def elineE : String := "1 | 0xE(5) =>  | TKN | 1"

lemma toReadable_five : toReadable 5 0 = 5 := by
  rw [toReadable, round_eq]
  norm_num

lemma toReadable_zero : toReadable 0 0 = 0 := by
  rw [toReadable, round_eq]
  norm_num

lemma computeAmount_fixed1 (b r : ℚ) : computeAmount cfgFixed1 b r = 1 := by
  simp [computeAmount, cfgFixed1]

lemma stepAccept0 : previewStep cfgFixed1 0 inpAccept = .accept planned0 5 alineA := by
  have hamt : computeAmount cfgFixed1 (toReadable 5 0) 0 = 1 := computeAmount_fixed1 _ _
  have hcls : classifyEntry (toReadable 5 0)
      (computeAmount cfgFixed1 (toReadable 5 0) 0) = .accepted := by
    rw [hamt, toReadable_five]
    exact (classifyEntry_accepted_iff 5 1).mpr (by norm_num)
  have hdec : cfgFixed1.decimals = 0 := rfl
  have hsym : cfgFixed1.symbol = "TKN" := rfl
  have hlf : lineFields "k:d" = ("k", some "d") := rfl
  simp only [previewStep, inpAccept, hdec, hsym, hlf]
  rw [hcls, hamt, toReadable_five]
  rfl

lemma stepZero0 : previewStep cfgFixed1 0 inpZero = .skip zline0 .zero_balance := by
  have hamt : computeAmount cfgFixed1 (toReadable 0 0) 0 = 1 := computeAmount_fixed1 _ _
  have hcls : classifyEntry (toReadable 0 0)
      (computeAmount cfgFixed1 (toReadable 0 0) 0) = .skipped .zero_balance := by
    rw [hamt, toReadable_zero]
    exact (classifyEntry_zero_iff 0 1).mpr (by norm_num)
  have hdec : cfgFixed1.decimals = 0 := rfl
  have hsym : cfgFixed1.symbol = "TKN" := rfl
  have hlf : lineFields "kz:dz" = ("kz", some "dz") := rfl
  simp only [previewStep, inpZero, hdec, hsym, hlf]
  rw [hcls, hamt, toReadable_zero]
  rfl

lemma stepZero1 : previewStep cfgFixed1 1 inpZero = .skip zline1 .zero_balance := by
  have hamt : computeAmount cfgFixed1 (toReadable 0 0) 0 = 1 := computeAmount_fixed1 _ _
  have hcls : classifyEntry (toReadable 0 0)
      (computeAmount cfgFixed1 (toReadable 0 0) 0) = .skipped .zero_balance := by
    rw [hamt, toReadable_zero]
    exact (classifyEntry_zero_iff 0 1).mpr (by norm_num)
  have hdec : cfgFixed1.decimals = 0 := rfl
  have hsym : cfgFixed1.symbol = "TKN" := rfl
  have hlf : lineFields "kz:dz" = ("kz", some "dz") := rfl
  simp only [previewStep, inpZero, hdec, hsym, hlf]
  rw [hcls, hamt, toReadable_zero]
  rfl

lemma stepQFail (i : ℕ) : previewStep cfgFixed1 i inpQFail = .queryFail := rfl

lemma stepEmptyDest0 :
    previewStep cfgFixed1 0 inpEmptyDest = .accept ⟨"k1", "0xE", "", 1⟩ 5 elineE := by
  have hamt : computeAmount cfgFixed1 (toReadable 5 0) 0 = 1 := computeAmount_fixed1 _ _
  have hcls : classifyEntry (toReadable 5 0)
      (computeAmount cfgFixed1 (toReadable 5 0) 0) = .accepted := by
    rw [hamt, toReadable_five]
    exact (classifyEntry_accepted_iff 5 1).mpr (by norm_num)
  have hdec : cfgFixed1.decimals = 0 := rfl
  have hsym : cfgFixed1.symbol = "TKN" := rfl
  have hlf : lineFields "k1:" = ("k1", some "") := rfl
  simp only [previewStep, inpEmptyDest, hdec, hsym, hlf]
  rw [hcls, hamt, toReadable_five]
  rfl

lemma runAccept :
    previewTransfers cfgFixed1 [inpAccept] = .ok ⟨[planned0], [], [previewHeader, alineA]⟩ := by
  unfold previewTransfers
  rw [processGo_cons_accept stepAccept0, processGo_nil]
  rfl

lemma runZero :
    previewTransfers cfgFixed1 [inpZero] = .ok ⟨[], [zline0], [previewHeader]⟩ := by
  unfold previewTransfers
  rw [processGo_cons_skip stepZero0, processGo_nil]
  rfl

lemma runMixed :
    previewTransfers cfgFixed1 [inpAccept, inpZero, inpQFail]
      = .ok ⟨[planned0], [zline1], [previewHeader, alineA]⟩ := by
  unfold previewTransfers
  rw [processGo_cons_accept stepAccept0]
  show processGo cfgFixed1 [inpZero, inpQFail] 1 ⟨[planned0], [], [previewHeader, alineA]⟩ = _
  rw [processGo_cons_skip stepZero1]
  show processGo cfgFixed1 [inpQFail] 2 ⟨[planned0], [zline1], [previewHeader, alineA]⟩ = _
  rw [processGo_cons_queryFail (stepQFail 2), processGo_nil]

/-- Counterexample for C6: with one processed entry that is skipped for
zero balance, the preview report holds only its header line (length 1) and
the skip list holds the entry (length 1); the claim demands a preview line
for the processed entry as well, i.e. a report of length 1 + 1. -/
theorem claim6_counterexample :
    (previewTransfers cfgFixed1 [inpZero]).map
        (fun st => (st.previewLines.length, st.skipped.length)) = .ok (1, 1)
    ∧ (1 : ℕ) ≠ 1 + 1 := by
  constructor
  · rw [runZero]
    rfl
  · decide

/-- The accumulators after the mixed three-entry run. -/
def stMixed : PreviewState := ⟨[planned0], [zline1], [previewHeader, alineA]⟩

/-- Witness for C6 as amended at a run with one accepted entry, one skipped
entry and one failed balance query. -/
theorem claim6_witness :
    stMixed.previewLines.length = 1 + stMixed.result.length
    ∧ stMixed.result.length + stMixed.skipped.length
      = (([inpAccept, inpZero, inpQFail]).filter
          (fun inp => inp.balanceRaw.isSome)).length :=
  claim6_amended cfgFixed1 [inpAccept, inpZero, inpQFail] stMixed runMixed

/-- Witness for C10 at the single-entry run accepting planned0. -/
theorem claim10_witness :
    0 < planned0.amount ∧ ∃ inp ∈ [inpAccept], ∃ j s raw, inp.balanceRaw = some raw ∧
      previewStep cfgFixed1 j inp = .accept planned0 (toReadable raw cfgFixed1.decimals) s ∧
      planned0.amount ≤ toReadable raw cfgFixed1.decimals :=
  claim10_planner_invariant cfgFixed1 [inpAccept] ⟨[planned0], [], [previewHeader, alineA]⟩
    runAccept planned0 (List.mem_singleton.mpr rfl)

/-- Claim C7 (code behaviour at the failing inputs): a line with no colon
is not rejected as a per-entry error: the run aborts with an unhandled
TypeError and the following well-formed entry is never processed; and a
line with an empty destination field is silently accepted into the plan
with an empty destination instead of being rejected. -/
theorem claim7_code_behavior :
    previewTransfers cfgFixed1 [inpNoColon, inpAccept] = .error crashTrimMsg
    ∧ (previewTransfers cfgFixed1 [inpEmptyDest]).map
        (fun st => st.result.map (fun p => p.toAddr)) = .ok [""] := by
  constructor
  · rfl
  · have hrun : previewTransfers cfgFixed1 [inpEmptyDest]
        = .ok ⟨[⟨"k1", "0xE", "", 1⟩], [], [previewHeader, elineE]⟩ := by
      unfold previewTransfers
      rw [processGo_cons_accept stepEmptyDest0, processGo_nil]
      rfl
    rw [hrun]
    rfl

/-- A planned transfer whose amount fits 6 decimals. -/
def pDemo : PlannedTransfer := ⟨"k", "0xA", "0xB", 1⟩

/-- A submission that always succeeds with a fixed hash. -/
def submitOk : PlannedTransfer → Except String String := fun _ => .ok "0xhash"

/-- A wallet-construction oracle accepting every planned key. -/
def validAll : String → Bool := fun _ => true

/-- A planned transfer whose amount has 7 fractional digits, one more than
a 6-decimal token allows. -/
def pBadAmount : PlannedTransfer := ⟨"kb", "0xC", "0xCd", 1234567 / 10 ^ 7⟩

/-- A planned transfer listed after the crashing one. -/
def pAfter : PlannedTransfer := ⟨"ka", "0xD", "0xDd", 1⟩

lemma executeTransfers_nil (vk : String → Bool) (d : ℕ) (g : Bool)
    (submit : PlannedTransfer → Except String String) :
    executeTransfers vk d g submit [] = ⟨[], 0, none⟩ := rfl

lemma executeTransfers_cons_ok {vk : String → Bool} {d : ℕ} {g : Bool}
    {submit : PlannedTransfer → Except String String} {p : PlannedTransfer}
    {rest : List PlannedTransfer} {z : ℤ}
    (hv : vk p.privateKey = true) (hf : formatAmount p.amount d = some z)
    (hg : g = true) :
    executeTransfers vk d g submit (p :: rest)
      = ⟨⟨p.fromAddr, p.toAddr, p.amount, submit p⟩
            :: (executeTransfers vk d g submit rest).outcomes,
          (executeTransfers vk d g submit rest).delays + 1,
          (executeTransfers vk d g submit rest).crashed⟩ := by
  subst hg
  simp [executeTransfers, hv, hf]

lemma executeTransfers_cons_badAmount {vk : String → Bool} {d : ℕ} {g : Bool}
    {submit : PlannedTransfer → Except String String} {p : PlannedTransfer}
    {rest : List PlannedTransfer}
    (hv : vk p.privateKey = true) (hf : formatAmount p.amount d = none) :
    executeTransfers vk d g submit (p :: rest) = ⟨[], 0, some parseUnitsErr⟩ := by
  simp [executeTransfers, hv, hf]

lemma formatAmount_one_six : formatAmount 1 6 = some 1000000 := by
  rw [formatAmount, if_pos]
  · congr 1
    norm_num
  · unfold Int.fract
    norm_num

lemma formatAmount_seven_digits : formatAmount (1234567 / 10 ^ 7) 6 = none := by
  rw [formatAmount, if_neg]
  unfold Int.fract
  norm_num

/-- When every planned entry passes the statements outside the try/catch
(valid key, amount fitting the token decimals, gas overrides built), the
loop is total: one outcome per entry in order, one delay per entry, no
abort. This is the behaviour the spec asserts unconditionally. -/
lemma executeTransfers_no_crash (vk : String → Bool) (d : ℕ)
    (submit : PlannedTransfer → Except String String) :
    ∀ plan : List PlannedTransfer,
      (∀ p ∈ plan, vk p.privateKey = true) →
      (∀ p ∈ plan, ∃ z, formatAmount p.amount d = some z) →
      (executeTransfers vk d true submit plan).outcomes
          = plan.map (fun p => ⟨p.fromAddr, p.toAddr, p.amount, submit p⟩)
        ∧ (executeTransfers vk d true submit plan).delays = plan.length
        ∧ (executeTransfers vk d true submit plan).crashed = none := by
  intro plan
  induction plan with
  | nil => intro _ _; exact ⟨rfl, rfl, rfl⟩
  | cons p rest ih =>
    intro hvk hfa
    obtain ⟨z, hz⟩ := hfa p (List.mem_cons_self _ _)
    have hv := hvk p (List.mem_cons_self _ _)
    have hrec := ih (fun q hq => hvk q (List.mem_cons_of_mem _ hq))
      (fun q hq => hfa q (List.mem_cons_of_mem _ hq))
    rw [executeTransfers_cons_ok hv hz rfl]
    refine ⟨?_, ?_, hrec.2.2⟩
    · simp only [List.map_cons]
      rw [hrec.1]
    · simp only [List.length_cons]
      rw [hrec.2.1]

/-- Claim C5 (code behaviour at the failing input): executing the plan
pDemo, pBadAmount, pAfter against a 6-decimal token does not give every
entry an outcome: parseUnits of the 7-decimal amount of the second entry
throws outside the try/catch, so the run aborts with exactly one outcome
(for the first entry) and one delay recorded, no outcome for the crashing
entry, and the third entry never attempted. -/
theorem claim5_code_behavior :
    executeTransfers validAll 6 true submitOk [pDemo, pBadAmount, pAfter]
      = ⟨[⟨"0xA", "0xB", 1, .ok "0xhash"⟩], 1, some parseUnitsErr⟩ := by
  have hf1 : formatAmount pDemo.amount 6 = some 1000000 := formatAmount_one_six
  have hfb : formatAmount pBadAmount.amount 6 = none := formatAmount_seven_digits
  rw [executeTransfers_cons_ok rfl hf1 rfl, executeTransfers_cons_badAmount rfl hfb]
  rfl

/-- Counterexample for C9: the input " yes" (leading space) is not exactly
"yes" under case-insensitive comparison, yet the code trims it first and
executes the plan: an outcome is recorded. -/
theorem claim9_counterexample :
    (mainAfterPrompt " yes" validAll 6 true submitOk [pDemo]).outcomes.length = 1
    ∧ jsToLower " yes" ≠ "yes" := by
  constructor
  · have hcond : jsToLower (jsTrim " yes") = "yes" := rfl
    unfold mainAfterPrompt
    rw [if_pos hcond, executeTransfers_cons_ok rfl formatAmount_one_six rfl,
      executeTransfers_nil]
    rfl
  · decide

/-- Claim C9 as amended: the plan is executed iff the operator input,
trimmed of surrounding whitespace, equals "yes" case-insensitively; any
other input executes nothing: no outcome, no delay, no crash. -/
theorem claim9_amended (answer : String) (validKey : String → Bool) (decimals : ℕ)
    (gasOk : Bool) (submit : PlannedTransfer → Except String String)
    (plan : List PlannedTransfer) :
    (jsToLower (jsTrim answer) = "yes"
      → mainAfterPrompt answer validKey decimals gasOk submit plan
        = executeTransfers validKey decimals gasOk submit plan)
    ∧ (jsToLower (jsTrim answer) ≠ "yes"
      → mainAfterPrompt answer validKey decimals gasOk submit plan = ⟨[], 0, none⟩) := by
  unfold mainAfterPrompt
  split_ifs with h
  · exact ⟨fun _ => rfl, fun hn => absurd h hn⟩
  · exact ⟨fun hy => absurd hy h, fun _ => rfl⟩

/-- Witness for C9 as amended at the inputs " YES" and "no". -/
theorem claim9_witness :
    mainAfterPrompt " YES" validAll 6 true submitOk [pDemo]
      = executeTransfers validAll 6 true submitOk [pDemo]
    ∧ mainAfterPrompt "no" validAll 6 true submitOk [pDemo] = ⟨[], 0, none⟩ :=
  ⟨(claim9_amended " YES" validAll 6 true submitOk [pDemo]).1 (by rfl),
    (claim9_amended "no" validAll 6 true submitOk [pDemo]).2 (by decide)⟩

end MultiTransfer
